import Mathlib

/-!
Shallow embedding of `src/instrumentino/communication/controlino_protocol.py`
(class `ControlinoProtocol`).

Bytes are modelled as `Nat` values (concrete inputs are < 256); byte buffers
as `List Nat`.  The `construct` formats are translated field by field:

* `packet_header_format = Struct(const_header=Const(b"\xA5\xA5\xA5\xA5"),
  type=Enum(Int8ub, DATA_PACKET=0, STRING_PACKET=1), packet_length=Int16ub)`
  occupies 4 + 1 + 2 = 7 bytes; `Enum` returns the raw integer for an
  unmapped type byte (construct 2.9 semantics), so the type is kept as the
  raw byte here.
* `data_packet_data_block_format = Struct(block_id=Int8ub,
  data=Union(Int8=Prefixed(Int16ub, Int8ub[:]), Int16=..., Int32=...,
  Int64=..., parsefrom="Int8"))`: every union alternative reads the same
  2-byte big-endian byte count and the same region; the alternative of
  width w yields the region grouped into big-endian w-byte integers
  (a trailing remainder shorter than w is dropped, as `GreedyRange` does);
  the stream advances past the Int8 alternative (`parsefrom`).
* `data_packet_format` = packet header, 4-byte big-endian timestamp, then a
  `PrefixedArray(Int8ub, block)`.
* `string_packet_format` = packet header, then `GreedyString("utf8")` over
  the rest of the sliced packet; invalid UTF-8 raises.

Failing parses (construct exceptions: `StreamError`, `ConstError`,
`UnicodeDecodeError`) are modelled as `none`; the decoded string is kept as
its list of Unicode code points.
-/

namespace Controlino

/-- `CONST_HEADER = b"\xA5\xA5\xA5\xA5"` (line 67 of the source). -/
def CONST_HEADER : List Nat := [165, 165, 165, 165]

/-- `packet_header_format.sizeof()` = 4 (const) + 1 (type) + 2 (length). -/
def headerSize : Nat := 7

/-- Parsed `packet_header_format`: the constant marker is checked and
dropped, `type` keeps the raw byte (unmapped values survive `Enum`),
`packet_length` is a big-endian 16-bit value. -/
structure PacketHeader where
  type : Nat
  packet_length : Nat
deriving Repr, DecidableEq

/-- Parsed `data_packet_data_block_format`.  The four fields `int8`,
`int16`, `int32`, `int64` are the `Union` alternatives `Int8`, `Int16`,
`Int32`, `Int64` of the source. -/
structure DataBlock where
  block_id : Nat
  int8 : List Nat
  int16 : List Nat
  int32 : List Nat
  int64 : List Nat
deriving Repr, DecidableEq

/-- Parsed `data_packet_format`; `relative_start_timestamp` is the single
field of `data_packet_header_format`. -/
structure DataPacket where
  packet_header : PacketHeader
  relative_start_timestamp : Nat
  data_blocks : List DataBlock
deriving Repr, DecidableEq

/-- Parsed `string_packet_format`; `string` is the list of Unicode code
points produced by `GreedyString("utf8")`. -/
structure StringPacket where
  packet_header : PacketHeader
  string : List Nat
deriving Repr, DecidableEq

/-- Big-endian value of a byte list (how `Int8ub`/`Int16ub`/`Int32ub`/
`Int64ub` read w bytes). -/
def beval (l : List Nat) : Nat := l.foldl (fun acc b => acc * 256 + b) 0

/-- Fuel-driven worker for `groupBE`; the fuel only makes the recursion
structural, `groupBE` always supplies enough. -/
def groupBEAux (w : Nat) : Nat → List Nat → List Nat
  | 0, _ => []
  | fuel + 1, l =>
    if 0 < w ∧ w ≤ l.length then beval (l.take w) :: groupBEAux w fuel (l.drop w)
    else []

/-- `GreedyRange` of a w-byte big-endian integer over a finite region:
group the region into w-byte big-endian values, dropping a trailing
remainder shorter than w. -/
def groupBE (w : Nat) (l : List Nat) : List Nat := groupBEAux w l.length l

/-- Strict UTF-8 decoding (what Python's `bytes.decode("utf-8")` does inside
`GreedyString("utf8")`): rejects stray continuation bytes, overlong forms,
surrogates and code points above U+10FFFF; returns the code points. -/
def utf8Decode : List Nat → Option (List Nat)
  | [] => some []
  | b :: rest =>
    if b < 128 then (utf8Decode rest).map (fun s => b :: s)
    else if 194 ≤ b ∧ b ≤ 223 then
      match rest with
      | c :: r2 =>
        if 128 ≤ c ∧ c ≤ 191 then
          (utf8Decode r2).map (fun s => ((b - 192) * 64 + (c - 128)) :: s)
        else none
      | [] => none
    else if 224 ≤ b ∧ b ≤ 239 then
      match rest with
      | c :: d :: r3 =>
        if (if b = 224 then 160 else 128) ≤ c ∧ c ≤ (if b = 237 then 159 else 191)
            ∧ 128 ≤ d ∧ d ≤ 191 then
          (utf8Decode r3).map
            (fun s => ((b - 224) * 4096 + (c - 128) * 64 + (d - 128)) :: s)
        else none
      | _ => none
    else if 240 ≤ b ∧ b ≤ 244 then
      match rest with
      | c :: d :: e :: r4 =>
        if (if b = 240 then 144 else 128) ≤ c ∧ c ≤ (if b = 244 then 143 else 191)
            ∧ 128 ≤ d ∧ d ≤ 191 ∧ 128 ≤ e ∧ e ≤ 191 then
          (utf8Decode r4).map
            (fun s => ((b - 240) * 262144 + (c - 128) * 4096 + (d - 128) * 64 + (e - 128)) :: s)
        else none
      | _ => none
    else none

/-- `packet_header_format.parse`: checks the 4-byte constant marker, reads
the type byte and the big-endian 16-bit `packet_length`, and returns the
unread remainder of the input. -/
def parseHeader (bytes : List Nat) : Option (PacketHeader × List Nat) :=
  match bytes with
  | a :: b :: c :: d :: t :: hi :: lo :: rest =>
    if [a, b, c, d] = CONST_HEADER then some (⟨t, hi * 256 + lo⟩, rest) else none
  | _ => none

/-- `data_packet_data_block_format.parse` on a stream: 1-byte `block_id`,
then the `Union`: each alternative reads the same 2-byte big-endian byte
count `n` and the same `n`-byte region; the stream advances past the `Int8`
alternative (`parsefrom="Int8"`), i.e. past `1 + 2 + n` bytes in total. -/
def parseBlock (bytes : List Nat) : Option (DataBlock × List Nat) :=
  match bytes with
  | id :: hi :: lo :: rest =>
    if hi * 256 + lo ≤ rest.length then
      some (⟨id,
             groupBE 1 (rest.take (hi * 256 + lo)),
             groupBE 2 (rest.take (hi * 256 + lo)),
             groupBE 4 (rest.take (hi * 256 + lo)),
             groupBE 8 (rest.take (hi * 256 + lo))⟩,
            rest.drop (hi * 256 + lo))
    else none
  | _ => none

/-- A fixed number of consecutive data blocks (the element parses of
`PrefixedArray`). -/
def parseBlocks : Nat → List Nat → Option (List DataBlock × List Nat)
  | 0, rest => some ([], rest)
  | k + 1, rest =>
    match parseBlock rest with
    | none => none
    | some (b, r) =>
      match parseBlocks k r with
      | none => none
      | some (bs, r2) => some (b :: bs, r2)

/-- `data_packet_format.parse`: packet header, 4-byte big-endian
`relative_start_timestamp`, 1-byte block count, then that many blocks.
Trailing bytes are ignored, as construct does. -/
def parseDataPacket (bytes : List Nat) : Option DataPacket :=
  match parseHeader bytes with
  | none => none
  | some (h, r) =>
    match r with
    | t1 :: t2 :: t3 :: t4 :: cnt :: r2 =>
      match parseBlocks cnt r2 with
      | none => none
      | some (bs, _) => some ⟨h, beval [t1, t2, t3, t4], bs⟩
    | _ => none

/-- `string_packet_format.parse`: packet header, then `GreedyString("utf8")`
over everything that remains of the sliced packet. -/
def parseStringPacket (bytes : List Nat) : Option StringPacket :=
  match parseHeader bytes with
  | none => none
  | some (h, r) =>
    match utf8Decode r with
    | none => none
    | some s => some ⟨h, s⟩

/-- An observable action of one loop iteration of `handle_incoming_bytes`:
`dispatchData` models `self.controller.update_input_channels(...)` (line
166), `enqueueString` models `self.string_packets_queue.put(...)` (line
169). -/
inductive Event
  | dispatchData (p : DataPacket)
  | enqueueString (p : StringPacket)
deriving Repr, DecidableEq

/-- Result of one iteration of the `while True` loop (lines 141-172):
`ret` = the function returns with this buffer left; `next` = the loop
continues with this buffer, having performed at most one event; `exn` = an
uncaught construct exception propagates, the buffer left in this state. -/
inductive Step
  | ret (buf : List Nat)
  | next (buf : List Nat) (ev : Option Event)
  | exn (buf : List Nat)
deriving Repr, DecidableEq

/-- `incoming_bytes.find(CONST_HEADER)` (line 142): index of the first full
4-byte marker occurrence, `none` for Python's `-1`. -/
def findMarker : List Nat → Option Nat
  | [] => none
  | x :: rest =>
    if (x :: rest).take 4 = CONST_HEADER then some 0
    else (findMarker rest).map (fun i => i + 1)

/-- `packet_header.type` as read from the (already trimmed) buffer:
byte 4 of `packet_header_format`. -/
def typeByte (b1 : List Nat) : Nat := b1.getD 4 0

/-- `packet_header.packet_length` as read from the (already trimmed)
buffer: bytes 5 and 6, big-endian. -/
def declaredLen (b1 : List Nat) : Nat := b1.getD 5 0 * 256 + b1.getD 6 0

/-- One iteration of the `while True` loop, line by line:

* line 142: `packet_start = incoming_bytes.find(CONST_HEADER)`;
* lines 143-146: no marker: `incoming_bytes[:] = []; return`;
* line 149: `incoming_bytes[:packet_start] = []` — the trimmed buffer is
  `buf.drop s` below;
* lines 151-153: fewer than `packet_header_format.sizeof()` = 7 bytes:
  return;
* lines 156-159: parse the header (it always succeeds here: the trimmed
  buffer starts with the marker and holds 7 bytes), let
  `packet_end = packet_start + packet_header.packet_length` — note the
  stale `packet_start`, taken before the trim; return if the buffer is
  shorter than `packet_end`;
* lines 162-163: `packet = incoming_bytes[packet_start:packet_end]`,
  `incoming_bytes[:packet_end] = []`;
* lines 164-172: dispatch a parsed DATA packet, enqueue a parsed STRING
  packet (a parse failure raises out of the method), or for an
  unrecognized type delete `incoming_bytes[:packet_end]` a second time. -/
def loop_iteration (buf : List Nat) : Step :=
  match findMarker buf with
  | none => Step.ret []
  | some s =>
    if (buf.drop s).length < headerSize then Step.ret (buf.drop s)
    else if (buf.drop s).length < s + declaredLen (buf.drop s) then Step.ret (buf.drop s)
    else if typeByte (buf.drop s) = 0 then
      match parseDataPacket (((buf.drop s).drop s).take (declaredLen (buf.drop s))) with
      | some dp =>
        Step.next ((buf.drop s).drop (s + declaredLen (buf.drop s)))
          (some (Event.dispatchData dp))
      | none => Step.exn ((buf.drop s).drop (s + declaredLen (buf.drop s)))
    else if typeByte (buf.drop s) = 1 then
      match parseStringPacket (((buf.drop s).drop s).take (declaredLen (buf.drop s))) with
      | some sp =>
        Step.next ((buf.drop s).drop (s + declaredLen (buf.drop s)))
          (some (Event.enqueueString sp))
      | none => Step.exn ((buf.drop s).drop (s + declaredLen (buf.drop s)))
    else
      Step.next (((buf.drop s).drop (s + declaredLen (buf.drop s))).drop
        (s + declaredLen (buf.drop s))) none

/-- How a call to `handle_incoming_bytes` ends: a normal return leaving the
buffer, an uncaught exception leaving the buffer, or — since the loop need
not terminate — divergence (fuel exhaustion in `runLoop`). -/
inductive Outcome
  | ok (buf : List Nat)
  | exn (buf : List Nat)
  | divergent
deriving Repr, DecidableEq

/-- Events performed by a call together with how it ended. -/
structure RunResult where
  events : List Event
  out : Outcome
deriving Repr, DecidableEq

/-- The `while True` loop, iterated under fuel.  Every terminating
behaviour of the Python loop is reached with fuel `buf.length + 1`, because
an iteration that neither returns nor raises removes at least the parsed
packet (which starts with the 4-byte marker) — except the no-progress state
recorded under claim C2, which is exactly the diverging case. -/
def runLoop : Nat → List Nat → RunResult
  | 0, _ => ⟨[], Outcome.divergent⟩
  | n + 1, buf =>
    match loop_iteration buf with
    | Step.ret b => ⟨[], Outcome.ok b⟩
    | Step.next b ev =>
      let r := runLoop n b
      ⟨ev.toList ++ r.events, r.out⟩
    | Step.exn b => ⟨[], Outcome.exn b⟩

/-- The parsing part of `handle_incoming_bytes` (lines 140-172). -/
def handle_incoming_bytes (buf : List Nat) : RunResult :=
  runLoop (buf.length + 1) buf

/-- Result of a full `handle_incoming_bytes` call including the
overload check (lines 135-138): `disconnected` records whether
`controller.disconnect()` was called. -/
structure HandleResult where
  disconnected : Bool
  result : RunResult
deriving Repr, DecidableEq

/-- Full `handle_incoming_bytes`: if the chunk exceeds
`controller.comm_port.MAX_BYTES_PER_READ` the controller is disconnected,
and parsing proceeds regardless (there is no `return` in that branch). -/
def handle_incoming_bytes_full (maxBytesPerRead : Nat) (buf : List Nat) : HandleResult :=
  ⟨decide (maxBytesPerRead < buf.length), handle_incoming_bytes buf⟩

/-- Feeding several chunks one call at a time: each call runs on the bytes
retained by the previous call followed by the new chunk, as the transport
does with the persistent `incoming_bytes` buffer.  An exception or
divergence stops the feed at that call. -/
def feedChunks : List Nat → List (List Nat) → RunResult
  | buf, [] => ⟨[], Outcome.ok buf⟩
  | buf, c :: cs =>
    let r := handle_incoming_bytes (buf ++ c)
    match r.out with
    | Outcome.ok b =>
      let r2 := feedChunks b cs
      ⟨r.events ++ r2.events, r2.out⟩
    | o => ⟨r.events, o⟩

/-- `STRING_PACKET_TYPE_PONG = "PONG"` as code points. -/
def STRING_PACKET_TYPE_PONG : List Nat := [80, 79, 78, 71]

/-- `ping` (lines 180-201), with the reply queue modelled as the list of
string packets available to `string_packets_queue.get` before its timeout
expires (FIFO): an empty list is the timeout (`return False` in the
`except` branch); otherwise one entry is consumed and its `string` field is
compared with `"PONG"`. -/
def ping (replies : List StringPacket) : Bool × List StringPacket :=
  match replies with
  | [] => (false, [])
  | p :: rest => (decide (p.string = STRING_PACKET_TYPE_PONG), rest)

/-- `" ".join(...)` over a non-empty token list (Python's `str.join`). -/
def joinSpace : List String → String
  | [] => ""
  | [x] => x
  | x :: y :: xs => x ++ " " ++ joinSpace (y :: xs)

/-- `build_command_packet` (lines 174-178):
`" ".join([command] + parameters) + "\r"`. -/
def build_command_packet (command : String) (parameters : List String) : String :=
  joinSpace (command :: parameters) ++ "\r"

/-- The event one complete, recognized packet produces when it is the sole
content of the buffer: the DATA dispatch, the STRING enqueue, or nothing. -/
def eventOf (p : List Nat) : Option Event :=
  if typeByte p = 0 then (parseDataPacket p).map Event.dispatchData
  else if typeByte p = 1 then (parseStringPacket p).map Event.enqueueString
  else none

/-- A byte list that is exactly one well-formed, recognized packet: it
starts with the marker, holds at least the 7 header bytes, its declared
`packet_length` equals its actual length, and its body parses at its
declared type. -/
def goodPacket (p : List Nat) : Prop :=
  p.take 4 = CONST_HEADER ∧ headerSize ≤ p.length ∧ declaredLen p = p.length ∧
    ((typeByte p = 0 ∧ (parseDataPacket p).isSome = true) ∨
     (typeByte p = 1 ∧ (parseStringPacket p).isSome = true))

instance (p : List Nat) : Decidable (goodPacket p) := by
  unfold goodPacket; infer_instance

/-- A byte list that is exactly one complete packet of a recognized type
whose body is malformed: it starts with the marker, holds at least the 7
header bytes, its declared `packet_length` equals its actual length, and
the body parse at its declared type fails (for DATA e.g. a body too short
for its timestamp, block count or block length fields; for STRING a body
that is not valid UTF-8). -/
def malformedPacket (p : List Nat) : Prop :=
  p.take 4 = CONST_HEADER ∧ headerSize ≤ p.length ∧ declaredLen p = p.length ∧
    ((typeByte p = 0 ∧ parseDataPacket p = none) ∨
     (typeByte p = 1 ∧ parseStringPacket p = none))

instance (p : List Nat) : Decidable (malformedPacket p) := by
  unfold malformedPacket; infer_instance

/-- Concatenation of a list of byte lists (or of packet groups). -/
def concatAll {α : Type} : List (List α) → List α
  | [] => []
  | c :: cs => c ++ concatAll cs

/-- A complete STRING packet whose body encodes "PONG":
marker, type 1, `packet_length` 11, then the four ASCII bytes. -/
def pongPacketBytes : List Nat := [165, 165, 165, 165, 1, 0, 11, 80, 79, 78, 71]

/-- The string packet decoded from `pongPacketBytes`. -/
def pongReplyPacket : StringPacket := ⟨⟨1, 11⟩, STRING_PACKET_TYPE_PONG⟩

/-- Claim C1's buffer: two garbage bytes `FF FF` followed by the complete
PONG string packet. -/
def c1Buffer : List Nat := [255, 255] ++ pongPacketBytes

/-- Claim C2's buffer: a complete packet with an unrecognized type byte 2
and declared `packet_length` 0. -/
def c2NoProgressBuffer : List Nat := [165, 165, 165, 165, 2, 0, 0]

/-- A complete DATA packet whose declared length 7 covers only the header,
so its body lacks the 4 timestamp bytes and `data_packet_format.parse`
fails. -/
def c3MalformedPacket : List Nat := [165, 165, 165, 165, 0, 0, 7]

/-- A complete STRING packet of declared length 8 whose 1-byte body `FF`
is not valid UTF-8, so `GreedyString("utf8")` raises. -/
def c3BadUtf8Packet : List Nat := [165, 165, 165, 165, 1, 0, 8, 255]

/-- Claim C5's 16-byte buffer, with declared `packet_length` `0x0A` = 10. -/
def c5Buffer : List Nat := [165, 165, 165, 165, 0, 0, 10, 0, 0, 0, 0, 1, 5, 0, 1, 7]

/-- Claim C5's buffer with the declared length corrected to `0x10` = 16,
the whole packet including the 7-byte header. -/
def c5FixedBuffer : List Nat := [165, 165, 165, 165, 0, 0, 16, 0, 0, 0, 0, 1, 5, 0, 1, 7]

/-- The data packet decoded from `c5FixedBuffer`: timestamp 0 and one block
with id 5 whose single data byte is 7. -/
def c5DataPacket : DataPacket := ⟨⟨0, 16⟩, 0, [⟨5, [7], [], [], []⟩]⟩

/-- A complete packet with an unrecognized type byte 2 and declared
`packet_length` 7 (its exact size). -/
def c7UnknownPacket : List Nat := [165, 165, 165, 165, 2, 0, 7]

/-- Claim C4's first chunk: the first two marker bytes of the PONG packet. -/
def c4Chunk1 : List Nat := [165, 165]

/-- Claim C4's second chunk: the remaining nine bytes of the PONG packet. -/
def c4Chunk2 : List Nat := [165, 165, 1, 0, 11, 80, 79, 78, 71]

lemma groupBEAux_one (fuel : Nat) : ∀ l : List Nat, l.length ≤ fuel → groupBEAux 1 fuel l = l := by
  induction fuel with
  | zero =>
    intro l h
    cases l with
    | nil => rfl
    | cons x xs => simp at h
  | succ k ih =>
    intro l h
    cases l with
    | nil => rfl
    | cons x xs =>
      have hcond : 0 < 1 ∧ 1 ≤ (x :: xs).length := by simp
      rw [groupBEAux, if_pos hcond]
      simp only [List.take_succ_cons, List.take_zero, List.drop_succ_cons, List.drop_zero]
      simp [beval]
      exact ih xs (by simpa using h)

lemma groupBE_one (l : List Nat) : groupBE 1 l = l :=
  groupBEAux_one l.length l (Nat.le_refl _)

lemma findMarker_at_head (l : List Nat) (h : l.take 4 = CONST_HEADER) :
    findMarker l = some 0 := by
  cases l with
  | nil => simp [CONST_HEADER] at h
  | cons x rest => rw [findMarker, if_pos h]

lemma typeByte_append (p rest : List Nat) (h : 7 ≤ p.length) :
    typeByte (p ++ rest) = typeByte p :=
  List.getD_append p rest 0 4 (by omega)

lemma declaredLen_append (p rest : List Nat) (h : 7 ≤ p.length) :
    declaredLen (p ++ rest) = declaredLen p := by
  unfold declaredLen
  rw [List.getD_append p rest 0 5 (by omega), List.getD_append p rest 0 6 (by omega)]

/-- One loop iteration on a buffer starting with a complete packet `p`
whose declared length equals its size: the marker is found at index 0, so
the stale `packet_start` is 0 and the iteration behaves as intended,
consuming exactly `p` (twice for an unrecognized type). -/
lemma loop_iteration_exact (p rest : List Nat) (h4 : p.take 4 = CONST_HEADER)
    (h7 : headerSize ≤ p.length) (hd : declaredLen p = p.length) :
    loop_iteration (p ++ rest) =
      (if typeByte p = 0 then
        match parseDataPacket p with
        | some dp => Step.next rest (some (Event.dispatchData dp))
        | none => Step.exn rest
      else if typeByte p = 1 then
        match parseStringPacket p with
        | some sp => Step.next rest (some (Event.enqueueString sp))
        | none => Step.exn rest
      else Step.next (rest.drop p.length) none) := by
  have h7' : 7 ≤ p.length := by simpa [headerSize] using h7
  have hm : findMarker (p ++ rest) = some 0 :=
    findMarker_at_head _ (by rw [List.take_append_of_le_length (by omega), h4])
  have hlen : declaredLen (p ++ rest) = p.length := by
    rw [declaredLen_append p rest h7', hd]
  have hty : typeByte (p ++ rest) = typeByte p := typeByte_append p rest h7'
  unfold loop_iteration
  rw [hm]
  dsimp only
  simp only [List.drop_zero, Nat.zero_add, hlen, hty]
  rw [if_neg (by simp only [List.length_append, headerSize]; omega)]
  rw [if_neg (by simp only [List.length_append]; omega)]
  rw [List.take_left, List.drop_left]

lemma loop_iteration_good (p rest : List Nat) (h : goodPacket p) :
    loop_iteration (p ++ rest) = Step.next rest (eventOf p) := by
  obtain ⟨h4, h7, hd, hty⟩ := h
  rw [loop_iteration_exact p rest h4 h7 hd]
  unfold eventOf
  rcases hty with ⟨ht, hs⟩ | ⟨ht, hs⟩
  · obtain ⟨dp, hdp⟩ := Option.isSome_iff_exists.mp hs
    simp [ht, hdp]
  · obtain ⟨sp, hsp⟩ := Option.isSome_iff_exists.mp hs
    simp [ht, hsp]

lemma runLoop_succ_next (n : Nat) (buf b : List Nat) (ev : Option Event)
    (h : loop_iteration buf = Step.next b ev) :
    runLoop (n + 1) buf = ⟨ev.toList ++ (runLoop n b).events, (runLoop n b).out⟩ := by
  simp [runLoop, h]

lemma runLoop_succ_exn (n : Nat) (buf b : List Nat)
    (h : loop_iteration buf = Step.exn b) :
    runLoop (n + 1) buf = ⟨[], Outcome.exn b⟩ := by
  simp [runLoop, h]

lemma runLoop_succ_nil (n : Nat) : runLoop (n + 1) [] = ⟨[], Outcome.ok []⟩ := rfl

lemma length_concatAll_ge (ps : List (List Nat)) (h : ∀ p ∈ ps, goodPacket p) :
    ps.length ≤ (concatAll ps).length := by
  induction ps with
  | nil => simp [concatAll]
  | cons p ps ih =>
    have h7 : 7 ≤ p.length := by
      simpa [headerSize] using (h p (by simp)).2.1
    have := ih (fun q hq => h q (by simp [hq]))
    simp only [concatAll, List.length_append, List.length_cons]
    omega

lemma mem_concatAll {α : Type} (x : α) (l : List (List α)) :
    x ∈ concatAll l ↔ ∃ c ∈ l, x ∈ c := by
  induction l with
  | nil => simp [concatAll]
  | cons c cs ih => simp [concatAll, List.mem_append, ih]

lemma runLoop_concat (ps : List (List Nat)) (h : ∀ p ∈ ps, goodPacket p) :
    ∀ n, ps.length < n → runLoop n (concatAll ps) = ⟨ps.filterMap eventOf, Outcome.ok []⟩ := by
  induction ps with
  | nil =>
    intro n hn
    cases n with
    | zero => omega
    | succ m => simpa [concatAll] using runLoop_succ_nil m
  | cons p ps ih =>
    intro n hn
    cases n with
    | zero => omega
    | succ m =>
      have hstep := loop_iteration_good p (concatAll ps) (h p (by simp))
      rw [show concatAll (p :: ps) = p ++ concatAll ps from rfl]
      rw [runLoop_succ_next m _ _ _ hstep]
      rw [ih (fun q hq => h q (by simp [hq])) m (by simp at hn ⊢; omega)]
      cases he : eventOf p with
      | none => simp [List.filterMap_cons_none he]
      | some e => simp [List.filterMap_cons_some he]

lemma handle_concatAll (ps : List (List Nat)) (h : ∀ p ∈ ps, goodPacket p) :
    handle_incoming_bytes (concatAll ps) = ⟨ps.filterMap eventOf, Outcome.ok []⟩ := by
  unfold handle_incoming_bytes
  exact runLoop_concat ps h _ (by have := length_concatAll_ge ps h; omega)

lemma feedChunks_groups (pss : List (List (List Nat)))
    (h : ∀ ps ∈ pss, ∀ p ∈ ps, goodPacket p) :
    feedChunks [] (pss.map concatAll) =
      ⟨(concatAll pss).filterMap eventOf, Outcome.ok []⟩ := by
  induction pss with
  | nil => simp [feedChunks, concatAll]
  | cons ps pss ih =>
    show feedChunks [] (concatAll ps :: pss.map concatAll) = _
    rw [feedChunks, List.nil_append, handle_concatAll ps (h ps (by simp))]
    dsimp only
    rw [ih (fun qs hqs q hq => h qs (by simp [hqs]) q hq)]
    simp [concatAll, List.filterMap_append]

/-- C1: on the buffer `FF FF` followed by a complete STRING packet encoding
"PONG", a single `handle_incoming_bytes` call enqueues nothing and returns
with the whole 11-byte packet still in the buffer — the garbage is
discarded, but `packet_end = packet_start + packet_length` is computed with
the pre-trim `packet_start` (2), so the completeness check waits for 2
bytes that are not part of the packet.  The claim says exactly this one
STRING packet is decoded and enqueued by the single call. -/
theorem c1_garbage_then_pong_not_decoded :
    handle_incoming_bytes c1Buffer = ⟨[], Outcome.ok pongPacketBytes⟩ := by decide

/-- C2: the decode loop does not always terminate.  On a complete packet
with unrecognized type 2 and declared `packet_length` 0, one iteration
neither returns nor shrinks the buffer (it continues with the identical
buffer), and the loop runs forever (every fuel bound is exhausted). -/
theorem c2_loop_no_progress :
    loop_iteration c2NoProgressBuffer = Step.next c2NoProgressBuffer none ∧
      ∀ n, (runLoop n c2NoProgressBuffer).out = Outcome.divergent := by
  refine ⟨by decide, ?_⟩
  intro n
  induction n with
  | zero => rfl
  | succ k ih =>
    have h : loop_iteration c2NoProgressBuffer = Step.next c2NoProgressBuffer none := by
      decide
    rw [runLoop_succ_next k _ _ _ h]
    simpa using ih

/-- C3 counterexample: a complete DATA packet whose declared length 7
covers only the header, followed by a complete valid STRING packet, makes
`handle_incoming_bytes` raise (`data_packet_format.parse` fails on the
3-byte body and there is no exception handler), and the following valid
packet is not decoded in that call.  The claim says no exception reaches
the caller and subsequent valid packets still decode. -/
theorem c3_counterexample :
    handle_incoming_bytes (c3MalformedPacket ++ pongPacketBytes) =
      ⟨[], Outcome.exn pongPacketBytes⟩ := by decide

/-- C3 amended: every complete packet of a recognized type whose body is
malformed — a DATA body that `data_packet_format.parse` rejects or a
STRING body that is not valid UTF-8 — makes `handle_incoming_bytes` raise
to its caller: the packet's bytes have been removed from the buffer, no
event is produced, and whatever follows it stays in the buffer
unprocessed by that call. -/
theorem c3_amended_malformed_raises (p rest : List Nat) (h : malformedPacket p) :
    handle_incoming_bytes (p ++ rest) = ⟨[], Outcome.exn rest⟩ := by
  obtain ⟨h4, h7, hd, hty⟩ := h
  have hstep : loop_iteration (p ++ rest) = Step.exn rest := by
    rw [loop_iteration_exact p rest h4 h7 hd]
    rcases hty with ⟨ht, hn⟩ | ⟨ht, hn⟩
    · simp [ht, hn]
    · simp [ht, hn]
  unfold handle_incoming_bytes
  exact runLoop_succ_exn _ _ _ hstep

/-- C3 amended, witness: a malformed DATA packet (declared length 7, so no
timestamp bytes) followed by a concrete byte, and a malformed STRING
packet (invalid UTF-8 body `FF`) followed by a complete valid PONG
packet. -/
theorem c3_amended_malformed_raises_witness :
    handle_incoming_bytes (c3MalformedPacket ++ [9]) = ⟨[], Outcome.exn [9]⟩ ∧
      handle_incoming_bytes (c3BadUtf8Packet ++ pongPacketBytes) =
        ⟨[], Outcome.exn pongPacketBytes⟩ :=
  ⟨c3_amended_malformed_raises c3MalformedPacket [9] (by decide),
   c3_amended_malformed_raises c3BadUtf8Packet pongPacketBytes (by decide)⟩

/-- C4 counterexample: splitting the PONG packet after its first two
marker bytes changes the result — the first call finds no complete marker
and deletes the partial marker as garbage, so the chunked feed decodes
nothing while the contiguous feed enqueues the packet. -/
theorem c4_counterexample :
    feedChunks [] [c4Chunk1, c4Chunk2] ≠ feedChunks [] [c4Chunk1 ++ c4Chunk2] := by decide

/-- C4 amended: chunk-boundary independence holds when every chunk
boundary coincides with a packet boundary.  For any list of packet groups
(each packet well-formed, recognized, and of exactly its declared length),
feeding one group per call equals feeding everything in one contiguous
chunk, and both produce exactly the per-packet events with an empty final
buffer. -/
theorem c4_amended_packet_boundary (pss : List (List (List Nat)))
    (h : ∀ ps ∈ pss, ∀ p ∈ ps, goodPacket p) :
    feedChunks [] (pss.map concatAll) = feedChunks [] [concatAll (concatAll pss)] ∧
      feedChunks [] (pss.map concatAll) =
        ⟨(concatAll pss).filterMap eventOf, Outcome.ok []⟩ := by
  have h1 := feedChunks_groups pss h
  have h2 := feedChunks_groups [concatAll pss] (by
    intro ps hps p hp
    rw [List.mem_singleton] at hps
    subst hps
    obtain ⟨c, hc, hpc⟩ := (mem_concatAll p pss).mp hp
    exact h c hc p hpc)
  simp only [List.map_cons, List.map_nil] at h2
  rw [show concatAll [concatAll pss] = concatAll pss by simp [concatAll]] at h2
  exact ⟨h1.trans h2.symm, h1⟩

/-- C4 amended, witness: a PONG string packet and a DATA packet fed as two
boundary-aligned chunks versus one contiguous chunk. -/
theorem c4_amended_packet_boundary_witness :
    (feedChunks [] ([[pongPacketBytes], [c5FixedBuffer]].map concatAll) =
        feedChunks [] [concatAll (concatAll [[pongPacketBytes], [c5FixedBuffer]])] ∧
      feedChunks [] ([[pongPacketBytes], [c5FixedBuffer]].map concatAll) =
        ⟨(concatAll [[pongPacketBytes], [c5FixedBuffer]]).filterMap eventOf,
          Outcome.ok []⟩) :=
  c4_amended_packet_boundary [[pongPacketBytes], [c5FixedBuffer]] (by decide)

/-- C5 counterexample: the spec's 16-byte buffer declares
`packet_length = 0x0A` = 10, but the real header occupies 7 bytes (not 6),
so the sliced packet holds only 3 body bytes; `data_packet_format.parse`
fails reading the 4-byte timestamp and the exception propagates — no
DataPacket is dispatched. -/
theorem c5_counterexample :
    handle_incoming_bytes c5Buffer = ⟨[], Outcome.exn [0, 1, 5, 0, 1, 7]⟩ := by decide

/-- C5 amended: with the declared length corrected to `0x10` = 16 (header
7 bytes + timestamp 4 + block count 1 + block 4), the same payload decodes
to exactly one DataPacket with timestamp 0 and one DataBlock with id 5 and
8-bit values [7]. -/
theorem c5_amended_with_correct_length :
    handle_incoming_bytes c5FixedBuffer =
      ⟨[Event.dispatchData c5DataPacket], Outcome.ok []⟩ := by decide

/-- C6 counterexample: no width is declared per block.  For the block
`05 00 02 01 02` the decoder's effective values (the `Int8` alternative,
which `parsefrom` fixes) are the raw bytes `[1, 2]`, which differ from the
16-bit grouping `[258]` — so a block carrying 16-bit data is not
interpreted at its intended width. -/
theorem c6_counterexample :
    parseBlock [5, 0, 2, 1, 2] = some (⟨5, [1, 2], [258], [], []⟩, []) ∧
      ([1, 2] : List Nat) ≠ [258] ∧ groupBE 2 [1, 2] = [258] := by decide

/-- C6 amended: a block reads a 1-byte id, a 2-byte big-endian byte-length
prefix, then that many bytes; the union exposes that region grouped at
every width 1, 2, 4 and 8 (big-endian, trailing remainder dropped), the
8-bit grouping being the raw bytes, and consumes exactly id + prefix +
region.  No per-block width choice exists. -/
theorem c6_amended_block_widths (id hi lo : Nat) (data rest : List Nat)
    (h : data.length = hi * 256 + lo) :
    parseBlock (id :: hi :: lo :: (data ++ rest)) =
      some (⟨id, data, groupBE 2 data, groupBE 4 data, groupBE 8 data⟩, rest) := by
  unfold parseBlock
  dsimp only
  rw [if_pos (by simp only [List.length_append]; omega)]
  rw [← h, List.take_left, List.drop_left, groupBE_one]

/-- C6 amended, witness: the two-byte block region `[1, 2]`. -/
theorem c6_amended_block_widths_witness :
    parseBlock (5 :: 0 :: 2 :: ([1, 2] ++ [])) =
      some (⟨5, [1, 2], groupBE 2 [1, 2], groupBE 4 [1, 2], groupBE 8 [1, 2]⟩, []) :=
  c6_amended_block_widths 5 0 2 [1, 2] [] (by decide)

/-- C7: a complete packet with unrecognized type 2 and length 7 followed
by a complete valid STRING packet: the unrecognized branch deletes
`incoming_bytes[:packet_end]` a second time (the packet was already
removed at line 163), so the first 7 bytes of the following packet are
destroyed and nothing is ever dispatched — while the same STRING packet on
its own is decoded and enqueued.  The claim says the second packet is
still decoded. -/
theorem c7_unknown_type_destroys_next_packet :
    handle_incoming_bytes (c7UnknownPacket ++ pongPacketBytes) = ⟨[], Outcome.ok []⟩ ∧
      handle_incoming_bytes pongPacketBytes =
        ⟨[Event.enqueueString pongReplyPacket], Outcome.ok []⟩ := by decide

/-- C8: `ping` returns true iff the reply queue yields a packet before the
timeout (modelled: the list of available replies is non-empty) whose text
is "PONG"; an empty queue gives false with nothing consumed, and whenever
a reply exists exactly one entry is consumed. -/
theorem c8_ping_pong (q : List StringPacket) :
    ((ping q).1 = true ↔
        ∃ p rest, q = p :: rest ∧ p.string = STRING_PACKET_TYPE_PONG) ∧
      (q = [] → ping q = (false, [])) ∧
      ∀ p rest, q = p :: rest → (ping q).2 = rest := by
  cases q with
  | nil =>
    refine ⟨by simp [ping], fun _ => rfl, ?_⟩
    intro p rest hq
    exact absurd hq.symm (List.cons_ne_nil p rest)
  | cons p rest =>
    refine ⟨?_, ?_, ?_⟩
    · constructor
      · intro hp
        refine ⟨p, rest, rfl, ?_⟩
        simpa [ping] using hp
      · rintro ⟨p', r', heq, hs⟩
        injection heq with h1 h2
        subst h1
        simp [ping, hs]
    · intro hq
      exact absurd hq (List.cons_ne_nil p rest)
    · intro p' r' heq
      injection heq with h1 h2

/-- C8, witness: a queue holding one PONG reply satisfies the
characterization. -/
theorem c8_ping_pong_witness :
    (((ping [pongReplyPacket]).1 = true ↔
        ∃ p rest, [pongReplyPacket] = p :: rest ∧
          p.string = STRING_PACKET_TYPE_PONG) ∧
      (([pongReplyPacket] : List StringPacket) = [] →
        ping [pongReplyPacket] = (false, [])) ∧
      ∀ p rest, [pongReplyPacket] = p :: rest →
        (ping [pongReplyPacket]).2 = rest) :=
  c8_ping_pong [pongReplyPacket]

/-- C9: when the chunk exceeds `MAX_BYTES_PER_READ` the controller is
disconnected, but the call does not return there: the parse result is the
same as for a call with no overload (same events, same outcome), and a
large enough limit produces no disconnect. -/
theorem c9_overload_disconnect_still_parses (m : Nat) (buf : List Nat)
    (h : m < buf.length) :
    (handle_incoming_bytes_full m buf).disconnected = true ∧
      (handle_incoming_bytes_full m buf).result = handle_incoming_bytes buf ∧
      (handle_incoming_bytes_full buf.length buf).disconnected = false := by
  refine ⟨?_, rfl, ?_⟩
  · simp [handle_incoming_bytes_full, h]
  · simp [handle_incoming_bytes_full]

/-- C9, witness: an 11-byte chunk with a 4-byte read limit disconnects and
still decodes and enqueues the PONG packet it holds. -/
theorem c9_overload_witness :
    ((handle_incoming_bytes_full 4 pongPacketBytes).disconnected = true ∧
      (handle_incoming_bytes_full 4 pongPacketBytes).result =
        handle_incoming_bytes pongPacketBytes ∧
      (handle_incoming_bytes_full pongPacketBytes.length
        pongPacketBytes).disconnected = false) ∧
    (handle_incoming_bytes_full 4 pongPacketBytes).result =
      ⟨[Event.enqueueString pongReplyPacket], Outcome.ok []⟩ :=
  ⟨c9_overload_disconnect_still_parses 4 pongPacketBytes (by decide), by decide⟩

/-- C10: with no parameters `build_command_packet` returns the command
name directly followed by one carriage return (no space); with parameters
the name and parameters are joined by single spaces, then one carriage
return — captured by the recursion that prepending a token prepends
`token ++ " "`. -/
theorem c10_build_command_packet (command : String) :
    build_command_packet command [] = command ++ "\r" ∧
      ∀ p ps, build_command_packet command (p :: ps) =
        command ++ " " ++ build_command_packet p ps := by
  refine ⟨rfl, ?_⟩
  intro p ps
  show (command ++ " " ++ joinSpace (p :: ps)) ++ "\r" =
    (command ++ " ") ++ (joinSpace (p :: ps) ++ "\r")
  exact String.append_assoc (command ++ " ") (joinSpace (p :: ps)) "\r"

/-- C10, witness: the spec's own example command line. -/
theorem c10_build_command_packet_witness :
    (build_command_packet "CH:WRITE" [] = "CH:WRITE" ++ "\r" ∧
      ∀ p ps, build_command_packet "CH:WRITE" (p :: ps) =
        "CH:WRITE" ++ " " ++ build_command_packet p ps) ∧
    build_command_packet "CH:WRITE" ["A0", "123"] = "CH:WRITE A0 123\r" :=
  ⟨c10_build_command_packet "CH:WRITE", by decide⟩

end Controlino
